import Mathlib

/-!
# Verification of `lib/logger.js` (livlogger)

Shallow embedding of the request-telemetry logger: the cipher codec glue
(`encryptLogData` / `decryptLogData`), the text-file sink append/read protocol
(`logger`'s finish handler and `readTextLogs`), and the metrics computations
(`getCpuUsage`, `elapsedTimeInMs`).

JavaScript byte strings (Node `Buffer` contents, utf8-encoded ASCII strings)
are modelled as `List ℕ` of byte values; JavaScript numbers that stay integral
are `ℕ`/`ℤ`; the floating-point divisions of `getCpuUsage` are modelled over
`ℚ` together with an explicit `JsNum` carrying the `NaN`/`Infinity` cases that
JavaScript division produces.  The AES-256-CBC primitive and `JSON.parse` are
external library collaborators (Node `crypto` and the JS runtime); they are
parameters of the embedding (`Cipher`, `JsonParse`) constrained by their
documented contracts, while everything the repository itself does — IV
derivation from the key, hex encoding, key handling, file read–modify–write,
error flow — is defined concretely below.
-/

/-- Decimal digits (as ASCII byte codes) of a natural number, via `Nat.toDigits`. -/
def natToBytes (n : ℕ) : List ℕ :=
  (Nat.toDigits 10 n).map Char.toNat

/-- Decimal rendering (as ASCII byte codes) of an integer, `JSON.stringify` style. -/
def intToBytes : ℤ → List ℕ
  | Int.ofNat n => natToBytes n
  | Int.negSucc n => 45 :: natToBytes (n + 1)

/-- ASCII code of the lower-case hex digit for `n < 16`
(`'0'..'9'` are 48–57, `'a'..'f'` are 97–102), as produced by
Node's `'hex'` output encoding. -/
def hexDigitChar (n : ℕ) : ℕ :=
  if n < 10 then 48 + n else 87 + n

/-- Hex encoding of a byte string (two lower-case hex characters per byte),
the `'hex'` output encoding used by `cipher.update`/`cipher.final`. -/
def hexEncode : List ℕ → List ℕ
  | [] => []
  | b :: bs => hexDigitChar (b / 16) :: hexDigitChar (b % 16) :: hexEncode bs

/-- Value of one hex character (accepting both cases), `none` on a non-hex byte. -/
def hexDigitVal (c : ℕ) : Option ℕ :=
  if 48 ≤ c ∧ c ≤ 57 then some (c - 48)
  else if 97 ≤ c ∧ c ≤ 102 then some (c - 87)
  else if 65 ≤ c ∧ c ≤ 70 then some (c - 55)
  else none

/-- Hex decoding, the `'hex'` input encoding used by `decipher.update`. -/
def hexDecode : List ℕ → Option (List ℕ)
  | [] => some []
  | [_] => none
  | c1 :: c2 :: rest =>
    match hexDigitVal c1, hexDigitVal c2, hexDecode rest with
    | some h, some l, some bs => some ((16 * h + l) :: bs)
    | _, _, _ => none

/-- JSON values, the shape of the log records and of the entries stored in the
text log file.  Strings are byte lists (utf8-encoded ASCII). -/
inductive Json where
  | str (s : List ℕ)
  | num (n : ℤ)
  | bool (b : Bool)
  | null
  | arr (elems : List Json)
  | obj (fields : List (List ℕ × Json))

/-- Escape one byte of a JSON string (`"` and `\` get a backslash). -/
def escapeByte (c : ℕ) : List ℕ :=
  if c = 34 then [92, 34] else if c = 92 then [92, 92] else [c]

/-- Escape a whole JSON string body. -/
def escapeBytes : List ℕ → List ℕ
  | [] => []
  | c :: cs => escapeByte c ++ escapeBytes cs

/-- A JSON string literal: quote, escaped body, quote. -/
def quoteBytes (s : List ℕ) : List ℕ :=
  34 :: escapeBytes s ++ [34]

mutual

/-- `JSON.stringify` (compact form, as called at `logger.js:94`):
serialization of a `Json` value to its byte string. -/
def Json.stringify : Json → List ℕ
  | .str s => quoteBytes s
  | .num n => intToBytes n
  | .bool true => [116, 114, 117, 101]
  | .bool false => [102, 97, 108, 115, 101]
  | .null => [110, 117, 108, 108]
  | .arr l => 91 :: stringifyArr l ++ [93]
  | .obj l => 123 :: stringifyObj l ++ [125]

/-- Comma-separated serialization of array elements. -/
def stringifyArr : List Json → List ℕ
  | [] => []
  | [j] => Json.stringify j
  | j :: j2 :: rest => Json.stringify j ++ 44 :: stringifyArr (j2 :: rest)

/-- Comma-separated serialization of object fields. -/
def stringifyObj : List (List ℕ × Json) → List ℕ
  | [] => []
  | [(k, v)] => quoteBytes k ++ 58 :: Json.stringify v
  | (k, v) :: f2 :: rest => quoteBytes k ++ 58 :: Json.stringify v ++ 44 :: stringifyObj (f2 :: rest)

end

/-- The AES-256-CBC primitive of Node's `crypto` module, an external
collaborator of `logger.js`: `encrypt key iv plaintext` is the ciphertext byte
string produced by `createCipheriv('aes-256-cbc', key, iv)` followed by
`update`/`final` (PKCS#7 padding included), and `decrypt key iv ciphertext`
the inverse, `none` on a padding/corruption failure. -/
structure Cipher where
  encrypt : List ℕ → List ℕ → List ℕ → List ℕ
  decrypt : List ℕ → List ℕ → List ℕ → Option (List ℕ)

/-- The documented contract of the AES-256-CBC primitive: with a 32-byte key
and a 16-byte IV, encryption of a byte string yields a byte string and
decryption under the same key and IV recovers the plaintext. -/
def CipherOk (C : Cipher) : Prop :=
  ∀ k iv m, k.length = 32 → iv.length = 16 → (∀ b ∈ m, b < 256) →
    (∀ b ∈ C.encrypt k iv m, b < 256) ∧ C.decrypt k iv (C.encrypt k iv m) = some m

/-- `JSON.parse`, the JS runtime's parser, an external collaborator:
maps a byte string to the `Json` value it denotes, `none` on a syntax error.
A record `r` is *serializable* exactly when `parse (Json.stringify r) = some r`. -/
structure JsonParse where
  parse : List ℕ → Option Json

/-- One element of the JSON array stored in the text log file: a plaintext
record object (encryption disabled) or a hex ciphertext string (enabled). -/
inductive Entry where
  | plain (j : Json)
  | cipher (hex : List ℕ)

/-- State of the text backend's log file: absent, existing but zero-length,
or holding a JSON array of entries (the only contents the writer produces). -/
inductive FileState where
  | absent
  | empty
  | entries (l : List Entry)

/-- The configured backend, `config.database_type ∈ {text, sql, nosql}`
(`logger.js:17`). -/
inductive DbType where
  | text
  | sql
  | nosql
deriving DecidableEq

/-- Encryption-key setup at module load, `logger.js:70-81`: with the text
backend and `enable_log_security` set, a missing (or empty, hence falsy) key
string aborts startup; any non-empty key is accepted — its length is NOT
checked here.  Returns the key that the codec will use, `none` when
encryption is off. -/
def initEncryptionKey (dbType : DbType) (enableLogSecurity : Bool)
    (key : Option (List ℕ)) : Except String (Option (List ℕ)) :=
  if dbType = DbType.text ∧ enableLogSecurity then
    match key with
    | none => Except.error "Encryption key is not set in the configuration file"
    | some k =>
      if k = [] then Except.error "Encryption key is not set in the configuration file"
      else Except.ok (some k)
  else Except.ok none

/-- `encryptLogData` (`logger.js:88-97`): with encryption off the record is
returned unchanged; with encryption on, the IV is the first 16 bytes of the
key (`encryptionKey.slice(0, 16)`, line 92), the record is serialized with
`JSON.stringify` and encrypted, and the ciphertext is hex-encoded.
`createCipheriv` (line 93) raises when the key is not exactly 32 bytes — the
only place a key-length check happens.  The `entropy` argument models the
fresh randomness the crypto library could draw during the call; the source
derives the IV from the key and draws none, so it is unused. -/
def encryptLogData (enableTextEncryption : Bool) (C : Cipher) (entropy : List ℕ)
    (encryptionKey : List ℕ) (log : Json) : Except String Entry :=
  if ¬enableTextEncryption then Except.ok (Entry.plain log)
  else if encryptionKey.length ≠ 32 then Except.error "Invalid key length"
  else Except.ok (Entry.cipher
    (hexEncode (C.encrypt encryptionKey (encryptionKey.take 16) (Json.stringify log))))

/-- `decryptLogData` (`logger.js:104-110`): re-derives the IV from the first
16 bytes of the key, hex-decodes the data, decrypts (`createDecipheriv` again
checks the key length), and `JSON.parse`s the plaintext. -/
def decryptLogData (C : Cipher) (P : JsonParse) (encryptionKey : List ℕ)
    (data : List ℕ) : Except String Json :=
  if encryptionKey.length ≠ 32 then Except.error "Invalid key length"
  else match hexDecode data with
  | none => Except.error "error:1C80006B:Provider routines::wrong final block length"
  | some ct =>
    match C.decrypt encryptionKey (encryptionKey.take 16) ct with
    | none => Except.error "error:1C800064:Provider routines::bad decrypt"
    | some pt =>
      match P.parse pt with
      | none => Except.error "Unexpected token in JSON"
      | some j => Except.ok j

/-- Append an entry to the log file as the text branch of the finish handler
does (`logger.js:167-177`): if the file exists and is non-empty its JSON array
is parsed into `logs`, otherwise `logs` starts empty; the entry is pushed and
the whole array rewritten. -/
def appendEntry (e : Entry) (fs : FileState) : FileState :=
  match fs with
  | FileState.absent => FileState.entries [e]
  | FileState.empty => FileState.entries [e]
  | FileState.entries l => FileState.entries (l ++ [e])

/-- One text-backend write from the finish handler (`logger.js:167-177`):
encrypt the record (a no-op when encryption is off) and append it.  The
`Except` carries the exception `encryptLogData` can raise. -/
def writeText (enableTextEncryption : Bool) (C : Cipher) (entropy : List ℕ)
    (encryptionKey : List ℕ) (log : Json) (fs : FileState) : Except String FileState :=
  match encryptLogData enableTextEncryption C entropy encryptionKey log with
  | Except.error e => Except.error e
  | Except.ok entry => Except.ok (appendEntry entry fs)

/-- `n` sequential, non-concurrent text-backend writes, the `i`-th call
running with entropy `entropy i`. -/
def writeTextSeq (enableTextEncryption : Bool) (C : Cipher) (entropy : ℕ → List ℕ)
    (encryptionKey : List ℕ) : ℕ → List Json → FileState → Except String FileState
  | _, [], fs => Except.ok fs
  | i, r :: rs, fs =>
    match writeText enableTextEncryption C (entropy i) encryptionKey r fs with
    | Except.error e => Except.error e
    | Except.ok fs2 => writeTextSeq enableTextEncryption C entropy encryptionKey (i + 1) rs fs2

/-- A stored entry as the JSON value `JSON.parse` yields for it when the read
path returns the array without decrypting. -/
def entryToJson : Entry → Json
  | Entry.plain j => j
  | Entry.cipher h => Json.str h

/-- `logs.map(log => decryptLogData(log))` (`logger.js:207`): sequential
decryption of every entry; the first exception propagates out of the map. -/
def mapDecrypt (C : Cipher) (P : JsonParse) (encryptionKey : List ℕ) :
    List Entry → Except String (List Json)
  | [] => Except.ok []
  | e :: rest =>
    match e with
    | Entry.plain _ =>
      Except.error "The first argument must be of type string or an instance of Buffer"
    | Entry.cipher h =>
      match decryptLogData C P encryptionKey h with
      | Except.error msg => Except.error msg
      | Except.ok j =>
        match mapDecrypt C P encryptionKey rest with
        | Except.error msg => Except.error msg
        | Except.ok js => Except.ok (j :: js)

/-- `readTextLogs` (`logger.js:197-212`): with a non-text backend it throws
(the source's misleading message plays the role the spec calls
`UnsupportedOperationError`); otherwise `fs.readFileSync` raises `ENOENT` on
an absent file, a zero-length file raises the explicit
"Log file is empty" error, and an entries array is returned — decrypted
entry-by-entry when `config.text.enable_log_security` is set. -/
def readTextLogs (dbType : DbType) (enableLogSecurity : Bool) (C : Cipher)
    (P : JsonParse) (encryptionKey : List ℕ) (fs : FileState) :
    Except String (List Json) :=
  if dbType ≠ DbType.text then
    Except.error "Text file path is not specified in the configuration file"
  else
    match fs with
    | FileState.absent => Except.error "ENOENT: no such file or directory"
    | FileState.empty => Except.error "Log file is empty"
    | FileState.entries l =>
      if enableLogSecurity then mapDecrypt C P encryptionKey l
      else Except.ok (l.map entryToJson)

/-- The HTTP response of the request being logged; when the finish handler
runs, the response has already been sent (`res.on('finish', ...)`,
`logger.js:146`). -/
structure ResponseState where
  statusCode : ℕ
  sent : Bool

/-- The observable state the finish handler acts on: the sink state, the
operator console, and the already-sent response. -/
structure SystemState where
  fileState : FileState
  console : List String
  response : ResponseState

/-- The `try`/`catch` around the sink write in the finish handler
(`logger.js:166-188`): a successful write updates the sink state; a failed
write of ANY backend is caught and reported via
`console.error('Error logging data:', error)`.  The handler itself never
raises (the `Except.ok` on every branch), so nothing can reach the response
or the process. -/
def finishHandler (writeResult : Except String FileState) (st : SystemState) :
    Except String SystemState :=
  match writeResult with
  | Except.ok fs2 => Except.ok ⟨fs2, st.console, st.response⟩
  | Except.error e =>
    Except.ok ⟨st.fileState, st.console ++ ["Error logging data: " ++ e], st.response⟩

/-- A JavaScript number as produced by the divisions in `getCpuUsage`:
either an ordinary (here: rational) value or one of the IEEE specials that
division can yield (`0/0 = NaN`, `x/0 = ±Infinity`). -/
inductive JsNum where
  | val (q : ℚ)
  | nan
  | inf
  | negInf
deriving DecidableEq

/-- JavaScript division `a / b` on ordinary operands. -/
def jsDiv (a b : ℚ) : JsNum :=
  if b = 0 then
    if a = 0 then JsNum.nan else if 0 < a then JsNum.inf else JsNum.negInf
  else JsNum.val (a / b)

/-- Multiplication by 100 as applied to a division result; `NaN` and the
infinities propagate. -/
def jsMul100 : JsNum → JsNum
  | JsNum.val q => JsNum.val (q * 100)
  | JsNum.nan => JsNum.nan
  | JsNum.inf => JsNum.inf
  | JsNum.negInf => JsNum.negInf

/-- `Number.prototype.toFixed(digits)` on an ordinary value: the nearest
multiple of `10^(-digits)`, ties away from zero for the non-negative values
arising here (the ECMA-262 "pick the larger n" rule). -/
def jsToFixed (digits : ℕ) (q : ℚ) : ℚ :=
  (⌊q * 10 ^ digits + 1 / 2⌋ : ℚ) / 10 ^ digits

/-- `toFixed` lifted to `JsNum`: `NaN.toFixed(2)` is the string "NaN" and
`Infinity.toFixed(2)` the string "Infinity", modelled by propagating the
special value. -/
def jsNumToFixed (digits : ℕ) : JsNum → JsNum
  | JsNum.val q => JsNum.val (jsToFixed digits q)
  | JsNum.nan => JsNum.nan
  | JsNum.inf => JsNum.inf
  | JsNum.negInf => JsNum.negInf

/-- One core's cumulative tick counters, `os.cpus()[i].times`. -/
structure CpuTimes where
  user : ℕ
  nice : ℕ
  sys : ℕ
  idle : ℕ
  irq : ℕ

/-- The per-state sums across all cores accumulated by the `forEach` loop of
`getCpuUsage` (`logger.js:120-126`). -/
def sumTimes : List CpuTimes → CpuTimes
  | [] => ⟨0, 0, 0, 0, 0⟩
  | c :: cs =>
    let s := sumTimes cs
    ⟨c.user + s.user, c.nice + s.nice, c.sys + s.sys, c.idle + s.idle, c.irq + s.irq⟩

/-- `total = user + nice + sys + idle + irq` (`logger.js:128`), the raw tick
sum across all cores and states. -/
def totalTicks (cpus : List CpuTimes) : ℕ :=
  let s := sumTimes cpus
  s.user + s.nice + s.sys + s.idle + s.irq

/-- The object `getCpuUsage` returns: `user`, `system`, `idle` are the
`toFixed(2)` percentage strings (as the numbers they denote, `NaN` included),
`total` the raw tick sum. -/
structure CpuUsage where
  user : JsNum
  system : JsNum
  idle : JsNum
  total : ℕ
deriving DecidableEq

/-- `getCpuUsage` (`logger.js:116-136`): sums the five tick counters across
cores, then publishes `((x / total) * 100).toFixed(2)` for `x ∈ {user, sys,
idle}` together with the raw `total`.  The divisions are unguarded: an
all-zero snapshot gives `0/0 = NaN`. -/
def getCpuUsage (cpus : List CpuTimes) : CpuUsage :=
  let s := sumTimes cpus
  let total := s.user + s.nice + s.sys + s.idle + s.irq
  ⟨jsNumToFixed 2 (jsMul100 (jsDiv (s.user : ℚ) (total : ℚ))),
   jsNumToFixed 2 (jsMul100 (jsDiv (s.sys : ℚ) (total : ℚ))),
   jsNumToFixed 2 (jsMul100 (jsDiv (s.idle : ℚ) (total : ℚ))),
   total⟩

/-- `process.hrtime(start)` (`logger.js:147`) with both instants given in
nanoseconds on the monotonic clock: the elapsed `[seconds, nanoseconds]`
pair, `nanoseconds < 1e9`. -/
def hrtimeElapsed (startNs nowNs : ℕ) : ℕ × ℕ :=
  ((nowNs - startNs) / 1000000000, (nowNs - startNs) % 1000000000)

/-- `(elapsed[0] * 1000) + (elapsed[1] / 1e6)` (`logger.js:148`): the elapsed
time in milliseconds. -/
def elapsedTimeInMs (e : ℕ × ℕ) : ℚ :=
  (e.1 : ℚ) * 1000 + (e.2 : ℚ) / 1000000

/-- The `responseTime` field of the log record,
`elapsedTimeInMs.toFixed(3)` (`logger.js:155`), as the number the string
denotes. -/
def responseTimeMs (startNs nowNs : ℕ) : ℚ :=
  jsToFixed 3 (elapsedTimeInMs (hrtimeElapsed startNs nowNs))

/-- A cipher instance used to instantiate the library parameter in witnesses:
the identity permutation on byte strings (trivially satisfying the
`CipherOk` contract). -/
def idCipher : Cipher :=
  ⟨fun _ _ m => m, fun _ _ c => some c⟩

/-- A parser instance used to instantiate the library parameter in witnesses:
recognises exactly the serialization of `Json.null`. -/
def nullParse : JsonParse :=
  ⟨fun s => if s = Json.stringify Json.null then some Json.null else none⟩

/-- A 32-byte key (32 times the byte of `'a'`) for witnesses. -/
def key32 : List ℕ := List.replicate 32 97

/-- A 31-byte key for the key-length counterexample. -/
def key31 : List ℕ := List.replicate 31 97

/-- A 33-byte key for the key-length counterexample. -/
def key33 : List ℕ := List.replicate 33 97

/-- The entry that a successful `encryptLogData` call stores for a record:
the hex ciphertext when encryption is on, the record itself when off. -/
def encEntry (enable : Bool) (C : Cipher) (key : List ℕ) (r : Json) : Entry :=
  if enable then
    Entry.cipher (hexEncode (C.encrypt key (key.take 16) (Json.stringify r)))
  else Entry.plain r

theorem hexDigit_val : ∀ n < 16, hexDigitVal (hexDigitChar n) = some n := by
  decide

theorem hexDecode_hexEncode (bs : List ℕ) (h : ∀ b ∈ bs, b < 256) :
    hexDecode (hexEncode bs) = some bs := by
  induction bs with
  | nil => rfl
  | cons b bs ih =>
    have hb : b < 256 := h b (List.mem_cons_self b bs)
    have hhi : b / 16 < 16 := by omega
    have hlo : b % 16 < 16 := by omega
    have hrest : hexDecode (hexEncode bs) = some bs :=
      ih (fun x hx => h x (List.mem_cons_of_mem b hx))
    have hb2 : 16 * (b / 16) + b % 16 = b := by omega
    simp only [hexEncode, hexDecode, hexDigit_val _ hhi, hexDigit_val _ hlo, hrest, hb2]

theorem length_take_16 (key : List ℕ) (hk : key.length = 32) :
    (key.take 16).length = 16 := by
  simp [List.length_take, hk]

theorem decrypt_encrypt_core (C : Cipher) (P : JsonParse) (key : List ℕ) (r : Json)
    (hk : key.length = 32) (hC : CipherOk C)
    (hser : P.parse (Json.stringify r) = some r)
    (hbytes : ∀ b ∈ Json.stringify r, b < 256) :
    decryptLogData C P key
      (hexEncode (C.encrypt key (key.take 16) (Json.stringify r))) = Except.ok r := by
  obtain ⟨hct, hdec⟩ :=
    hC key (key.take 16) (Json.stringify r) hk (length_take_16 key hk) hbytes
  simp only [decryptLogData, hk, ne_eq, not_true_eq_false, if_false,
    hexDecode_hexEncode _ hct, hdec, hser]

theorem idCipher_ok : CipherOk idCipher := by
  intro k iv m _ _ hm
  exact ⟨hm, rfl⟩

/-- C1: for every 32-byte key and every serializable record `r` (with the
AES-256-CBC primitive meeting its contract), encrypting `r` and decrypting
the resulting hex envelope under the same key returns `r`. -/
theorem encryptLogData_decryptLogData_roundtrip (C : Cipher) (P : JsonParse)
    (key entropy : List ℕ) (r : Json)
    (hk : key.length = 32) (hC : CipherOk C)
    (hser : P.parse (Json.stringify r) = some r)
    (hbytes : ∀ b ∈ Json.stringify r, b < 256) :
    ∃ envelope, encryptLogData true C entropy key r = Except.ok (Entry.cipher envelope) ∧
      decryptLogData C P key envelope = Except.ok r := by
  refine ⟨hexEncode (C.encrypt key (key.take 16) (Json.stringify r)), ?_, ?_⟩
  · simp [encryptLogData, hk]
  · exact decrypt_encrypt_core C P key r hk hC hser hbytes

/-- Witness for C1 at the identity cipher, the null record and a concrete
32-byte key. -/
theorem encryptLogData_decryptLogData_roundtrip_witness :
    ∃ envelope,
      encryptLogData true idCipher [] key32 Json.null = Except.ok (Entry.cipher envelope) ∧
      decryptLogData idCipher nullParse key32 envelope = Except.ok Json.null :=
  encryptLogData_decryptLogData_roundtrip idCipher nullParse key32 [] Json.null
    (by decide) idCipher_ok (by rfl) (by decide)

theorem encryptLogData_eq_encEntry (enable : Bool) (C : Cipher) (e key : List ℕ)
    (r : Json) (hkey : enable = true → key.length = 32) :
    encryptLogData enable C e key r = Except.ok (encEntry enable C key r) := by
  cases enable with
  | false => simp [encryptLogData, encEntry]
  | true => simp [encryptLogData, encEntry, hkey rfl]

theorem writeTextSeq_entries (enable : Bool) (C : Cipher) (es : ℕ → List ℕ)
    (key : List ℕ) (hkey : enable = true → key.length = 32) :
    ∀ (rs : List Json) (i : ℕ) (l : List Entry),
      writeTextSeq enable C es key i rs (FileState.entries l) =
        Except.ok (FileState.entries (l ++ rs.map (encEntry enable C key))) := by
  intro rs
  induction rs with
  | nil => intro i l; simp [writeTextSeq]
  | cons r rs ih =>
    intro i l
    simp only [writeTextSeq, writeText,
      encryptLogData_eq_encEntry enable C (es i) key r hkey, appendEntry, ih,
      List.map_cons, List.append_assoc, List.singleton_append]

theorem mapDecrypt_encEntry (C : Cipher) (P : JsonParse) (key : List ℕ)
    (hk : key.length = 32) (hC : CipherOk C) :
    ∀ rs : List Json,
      (∀ r ∈ rs, P.parse (Json.stringify r) = some r ∧ ∀ b ∈ Json.stringify r, b < 256) →
      mapDecrypt C P key (rs.map (encEntry true C key)) = Except.ok rs := by
  intro rs
  induction rs with
  | nil => intro _; rfl
  | cons r rs ih =>
    intro h
    obtain ⟨hser, hbytes⟩ := h r (List.mem_cons_self r rs)
    have hrest := ih (fun x hx => h x (List.mem_cons_of_mem r hx))
    simp only [List.map_cons, mapDecrypt, encEntry, if_true,
      decrypt_encrypt_core C P key r hk hC hser hbytes, hrest]

theorem readTextLogs_encEntry (enable : Bool) (C : Cipher) (P : JsonParse)
    (key : List ℕ) (rs : List Json)
    (henc : enable = true → key.length = 32 ∧ CipherOk C ∧
      ∀ r ∈ rs, P.parse (Json.stringify r) = some r ∧ ∀ b ∈ Json.stringify r, b < 256) :
    readTextLogs DbType.text enable C P key
      (FileState.entries (rs.map (encEntry enable C key))) = Except.ok rs := by
  cases enable with
  | false =>
    simp [readTextLogs, entryToJson, encEntry, List.map_map, Function.comp_def]
  | true =>
    obtain ⟨hk, hC, hrs⟩ := henc rfl
    simp [readTextLogs, mapDecrypt_encEntry C P key hk hC rs hrs]

/-- Counterexample to C2: the claim quantifies over every natural number `n`
of writes, but after `n = 0` sequential writes on a fresh (absent) log file,
`readTextLogs` does not return `0` records — `fs.readFileSync` raises
`ENOENT`. -/
theorem readTextLogs_zero_writes_fails :
    writeTextSeq false idCipher (fun _ => []) [] 0 [] FileState.absent =
      Except.ok FileState.absent ∧
    readTextLogs DbType.text false idCipher nullParse [] FileState.absent =
      Except.error "ENOENT: no such file or directory" ∧
    ∀ logs : List Json,
      readTextLogs DbType.text false idCipher nullParse [] FileState.absent ≠
        Except.ok logs := by
  refine ⟨rfl, rfl, ?_⟩
  intro logs h
  simp [readTextLogs] at h

/-- C2 (amended: at least one write, starting from an absent or zero-length
file): after `n ≥ 1` sequential, non-concurrent text-sink writes of records
`r1..rn` — encryption enabled (with a 32-byte key, a contract-satisfying
cipher and serializable records) or disabled — `readTextLogs` returns
exactly those `n` records in write order. -/
theorem writes_then_readTextLogs (enable : Bool) (C : Cipher) (P : JsonParse)
    (key : List ℕ) (es : ℕ → List ℕ) (rs : List Json) (fs0 : FileState)
    (h0 : fs0 = FileState.absent ∨ fs0 = FileState.empty)
    (hne : rs ≠ [])
    (henc : enable = true → key.length = 32 ∧ CipherOk C ∧
      ∀ r ∈ rs, P.parse (Json.stringify r) = some r ∧ ∀ b ∈ Json.stringify r, b < 256) :
    ∃ fs1, writeTextSeq enable C es key 0 rs fs0 = Except.ok fs1 ∧
      readTextLogs DbType.text enable C P key fs1 = Except.ok rs := by
  have hkey : enable = true → key.length = 32 := fun h => (henc h).1
  obtain ⟨r, rs', rfl⟩ := List.exists_cons_of_ne_nil hne
  refine ⟨FileState.entries ((r :: rs').map (encEntry enable C key)), ?_, ?_⟩
  · have happ : appendEntry (encEntry enable C key r) fs0 =
        FileState.entries [encEntry enable C key r] := by
      rcases h0 with rfl | rfl <;> rfl
    simp only [writeTextSeq, writeText,
      encryptLogData_eq_encEntry enable C (es 0) key r hkey, happ,
      writeTextSeq_entries enable C es key hkey rs' 1 [encEntry enable C key r],
      List.map_cons, List.singleton_append]
  · exact readTextLogs_encEntry enable C P key (r :: rs') henc

/-- Witness for the amended C2: one plain-text write of the null record on an
absent file, then a read returning exactly that record. -/
theorem writes_then_readTextLogs_witness :
    ∃ fs1, writeTextSeq false idCipher (fun _ => []) [] 0 [Json.null] FileState.absent =
        Except.ok fs1 ∧
      readTextLogs DbType.text false idCipher nullParse [] fs1 =
        Except.ok [Json.null] :=
  writes_then_readTextLogs false idCipher nullParse [] (fun _ => []) [Json.null]
    FileState.absent (Or.inl rfl) (by simp) (by simp)

/-- Counterexample to C3: initializing the logger with encryption enabled and
a 31-byte key does NOT fail — `logger.js:75-81` only checks that a key is
present, never its length, so construction succeeds and no `InvalidKeyError`
is raised before the first record is written. -/
theorem init_accepts_31_byte_key :
    initEncryptionKey DbType.text true (some key31) = Except.ok (some key31) ∧
    key31.length = 31 := by
  exact ⟨by simp [initEncryptionKey, key31], by decide⟩

/-- C3 (amended): initialization accepts any non-empty key regardless of
length; a 31- or 33-byte key instead makes the FIRST encryption call fail
(`createCipheriv`, `logger.js:93`, raises the invalid-key-length error), while
a key of exactly 32 bytes encrypts successfully. -/
theorem key_length_checked_at_first_encrypt (C : Cipher) (e : List ℕ) (r : Json)
    (k k2 : List ℕ) (hk : k.length = 31 ∨ k.length = 33) (h32 : k2.length = 32) :
    initEncryptionKey DbType.text true (some k) = Except.ok (some k) ∧
    encryptLogData true C e k r = Except.error "Invalid key length" ∧
    ∃ entry, encryptLogData true C e k2 r = Except.ok entry := by
  have hne : k ≠ [] := by
    rcases hk with h | h <;> (intro hnil; rw [hnil] at h; simp at h)
  have hlen : k.length ≠ 32 := by rcases hk with h | h <;> omega
  refine ⟨by simp [initEncryptionKey, hne], by simp [encryptLogData, hlen], ?_⟩
  exact ⟨Entry.cipher (hexEncode (C.encrypt k2 (k2.take 16) (Json.stringify r))),
    by simp [encryptLogData, h32]⟩

/-- Witness for the amended C3 at concrete 31- and 32-byte keys. -/
theorem key_length_checked_at_first_encrypt_witness :
    initEncryptionKey DbType.text true (some key31) = Except.ok (some key31) ∧
    encryptLogData true idCipher [] key31 Json.null = Except.error "Invalid key length" ∧
    ∃ entry, encryptLogData true idCipher [] key32 Json.null = Except.ok entry :=
  key_length_checked_at_first_encrypt idCipher [] Json.null key31 key32
    (Or.inl (by decide)) (by decide)

/-- C4: encryption is deterministic — two calls with the same key and record
yield identical ciphertext whatever fresh randomness is available to each
call, because the IV is `key.take 16` (`logger.js:92`) rather than generated
per call. -/
theorem encryptLogData_deterministic (C : Cipher) (key : List ℕ) (r : Json)
    (e1 e2 : List ℕ) :
    encryptLogData true C e1 key r = encryptLogData true C e2 key r ∧
    (key.length = 32 → encryptLogData true C e1 key r =
      Except.ok (Entry.cipher
        (hexEncode (C.encrypt key (key.take 16) (Json.stringify r))))) :=
  ⟨rfl, fun hk => by simp [encryptLogData, hk]⟩

/-- Witness for C4 at a concrete key and two distinct entropies. -/
theorem encryptLogData_deterministic_witness :
    encryptLogData true idCipher [7] key32 Json.null =
      encryptLogData true idCipher [9] key32 Json.null ∧
    encryptLogData true idCipher [7] key32 Json.null =
      Except.ok (Entry.cipher
        (hexEncode (idCipher.encrypt key32 (key32.take 16) (Json.stringify Json.null)))) :=
  ⟨(encryptLogData_deterministic idCipher key32 Json.null [7] [9]).1,
   (encryptLogData_deterministic idCipher key32 Json.null [7] [9]).2 (by decide)⟩

/-- C5: every sink-write failure inside the finish handler is caught
(`logger.js:166-188`): the handler always returns without raising, the
already-sent response is untouched, a failure is reported on the operator
console, and a success only updates the sink state. -/
theorem finishHandler_isolates_write_failure (w : Except String FileState)
    (st : SystemState) (e : String) (fs2 : FileState) :
    (∃ st2, finishHandler w st = Except.ok st2 ∧ st2.response = st.response) ∧
    finishHandler (Except.error e) st =
      Except.ok ⟨st.fileState, st.console ++ ["Error logging data: " ++ e], st.response⟩ ∧
    finishHandler (Except.ok fs2) st = Except.ok ⟨fs2, st.console, st.response⟩ := by
  refine ⟨?_, rfl, rfl⟩
  cases w with
  | ok fs3 => exact ⟨_, rfl, rfl⟩
  | error msg => exact ⟨_, rfl, rfl⟩

/-- Counterexample to C6: on an absent log file `readTextLogs` fails with the
filesystem's `ENOENT` error raised by `fs.readFileSync` (`logger.js:201`),
which is not the `EmptyLogError` ("Log file is empty") the claim requires for
that state. -/
theorem readTextLogs_absent_not_empty_error :
    readTextLogs DbType.text false idCipher nullParse [] FileState.absent =
      Except.error "ENOENT: no such file or directory" ∧
    "ENOENT: no such file or directory" ≠ "Log file is empty" :=
  ⟨rfl, by decide⟩

/-- C6 (amended): an absent file makes `readTextLogs` fail with the
filesystem's `ENOENT` error; only a file that exists but is zero-length fails
with the `EmptyLogError` ("Log file is empty", `logger.js:203`). -/
theorem readTextLogs_absent_empty_errors (enable : Bool) (C : Cipher)
    (P : JsonParse) (key : List ℕ) :
    readTextLogs DbType.text enable C P key FileState.absent =
      Except.error "ENOENT: no such file or directory" ∧
    readTextLogs DbType.text enable C P key FileState.empty =
      Except.error "Log file is empty" :=
  ⟨rfl, rfl⟩

/-- C7: with a non-text backend configured, `readTextLogs` fails
(`logger.js:198-199`; the thrown error plays the role the spec names
`UnsupportedOperationError`), so stored records are only ever returned when
the file backend is active. -/
theorem readTextLogs_requires_text_backend (db : DbType) (enable : Bool)
    (C : Cipher) (P : JsonParse) (key : List ℕ) (fs : FileState)
    (h : db ≠ DbType.text) :
    readTextLogs db enable C P key fs =
      Except.error "Text file path is not specified in the configuration file" := by
  simp [readTextLogs, h]

/-- Witness for C7 with the SQL backend active. -/
theorem readTextLogs_requires_text_backend_witness :
    readTextLogs DbType.sql false idCipher nullParse [] FileState.absent =
      Except.error "Text file path is not specified in the configuration file" :=
  readTextLogs_requires_text_backend DbType.sql false idCipher nullParse []
    FileState.absent (by decide)

theorem jsToFixed_nonneg (d : ℕ) (q : ℚ) (h : 0 ≤ q) : 0 ≤ jsToFixed d q := by
  unfold jsToFixed
  apply div_nonneg _ (by positivity)
  have hf : (0 : ℤ) ≤ ⌊q * 10 ^ d + 1 / 2⌋ := Int.floor_nonneg.mpr (by positivity)
  exact_mod_cast hf

theorem jsToFixed2_le_100 (q : ℚ) (h : q ≤ 100) : jsToFixed 2 q ≤ 100 := by
  unfold jsToFixed
  rw [div_le_iff (by norm_num)]
  have hf : ⌊q * 10 ^ 2 + 1 / 2⌋ < 10001 := by
    rw [Int.floor_lt]
    push_cast
    linarith
  have hle : (⌊q * 10 ^ 2 + 1 / 2⌋ : ℚ) ≤ 10000 := by
    exact_mod_cast Int.lt_add_one_iff.mp hf
  norm_num
  linarith

theorem jsToFixed2_sum_le (x y z : ℚ) (h : x + y + z ≤ 100) :
    jsToFixed 2 x + jsToFixed 2 y + jsToFixed 2 z ≤ 100 + 1 / 100 := by
  have hx := Int.floor_le (x * 10 ^ 2 + 1 / 2)
  have hy := Int.floor_le (y * 10 ^ 2 + 1 / 2)
  have hz := Int.floor_le (z * 10 ^ 2 + 1 / 2)
  have hsumZ : ⌊x * 10 ^ 2 + 1 / 2⌋ + ⌊y * 10 ^ 2 + 1 / 2⌋ + ⌊z * 10 ^ 2 + 1 / 2⌋ ≤ 10001 := by
    have hq : ((⌊x * 10 ^ 2 + 1 / 2⌋ + ⌊y * 10 ^ 2 + 1 / 2⌋ + ⌊z * 10 ^ 2 + 1 / 2⌋ : ℤ) : ℚ) <
        10002 := by
      push_cast
      nlinarith
    exact Int.lt_add_one_iff.mp (by exact_mod_cast hq)
  have hsumQ : ((⌊x * 10 ^ 2 + 1 / 2⌋ : ℚ) + ⌊y * 10 ^ 2 + 1 / 2⌋ + ⌊z * 10 ^ 2 + 1 / 2⌋) ≤
      10001 := by exact_mod_cast hsumZ
  unfold jsToFixed
  rw [div_add_div_same, div_add_div_same, div_le_iff (by norm_num)]
  norm_num
  linarith

theorem pct_le_100 (a t : ℚ) (ht : 0 < t) (h : a ≤ t) : a / t * 100 ≤ 100 := by
  rw [div_mul_eq_mul_div, div_le_iff ht]
  linarith

/-- Counterexample to C8: for the single-core snapshot with ticks
`(user, nice, sys, idle, irq) = (1, 0, 3, 3, 0)`, `getCpuUsage` publishes
`user = 14.29`, `system = 42.86`, `idle = 42.86` (each rounded up by
`toFixed(2)`), whose sum is `100.01 > 100` — the claimed bound
`user + system + idle ≤ 100` fails. -/
theorem cpuUsage_sum_exceeds_100 :
    getCpuUsage [⟨1, 0, 3, 3, 0⟩] =
      ⟨JsNum.val (1429 / 100), JsNum.val (4286 / 100), JsNum.val (4286 / 100), 7⟩ ∧
    (1429 / 100 : ℚ) + 4286 / 100 + 4286 / 100 > 100 := by
  constructor
  · norm_num [getCpuUsage, sumTimes, jsDiv, jsMul100, jsNumToFixed, jsToFixed]
  · norm_num


theorem getCpuUsage_eval (cpus : List CpuTimes) (u nn ss ii ir : ℕ)
    (hs : sumTimes cpus = ⟨u, nn, ss, ii, ir⟩)
    (hne : (u : ℚ) + nn + ss + ii + ir ≠ 0) :
    getCpuUsage cpus =
      ⟨JsNum.val (jsToFixed 2 ((u : ℚ) / ((u : ℚ) + nn + ss + ii + ir) * 100)),
       JsNum.val (jsToFixed 2 ((ss : ℚ) / ((u : ℚ) + nn + ss + ii + ir) * 100)),
       JsNum.val (jsToFixed 2 ((ii : ℚ) / ((u : ℚ) + nn + ss + ii + ir) * 100)),
       u + nn + ss + ii + ir⟩ := by
  simp [getCpuUsage, hs, jsDiv, hne, jsMul100, jsNumToFixed]

/-- C8 (amended): `getCpuUsage` sums the user, nice, system, idle and irq
tick counters across all cores into the raw total it returns, and — whenever
that total is positive — publishes user, system and idle as
`tick / total * 100` rounded to 2 decimals, each in `[0, 100]`; their sum can
exceed 100 by independent rounding but never exceeds `100.01`. -/
theorem getCpuUsage_bounds (cpus : List CpuTimes) (h : 0 < totalTicks cpus) :
    ∃ qu qs qi : ℚ,
      (getCpuUsage cpus).user = JsNum.val qu ∧
      (getCpuUsage cpus).system = JsNum.val qs ∧
      (getCpuUsage cpus).idle = JsNum.val qi ∧
      qu = jsToFixed 2 (((sumTimes cpus).user : ℚ) / (totalTicks cpus : ℚ) * 100) ∧
      qs = jsToFixed 2 (((sumTimes cpus).sys : ℚ) / (totalTicks cpus : ℚ) * 100) ∧
      qi = jsToFixed 2 (((sumTimes cpus).idle : ℚ) / (totalTicks cpus : ℚ) * 100) ∧
      0 ≤ qu ∧ qu ≤ 100 ∧ 0 ≤ qs ∧ qs ≤ 100 ∧ 0 ≤ qi ∧ qi ≤ 100 ∧
      qu + qs + qi ≤ 100 + 1 / 100 ∧
      (getCpuUsage cpus).total = totalTicks cpus := by
  rcases hs : sumTimes cpus with ⟨u, nn, ss, ii, ir⟩
  have htot : totalTicks cpus = u + nn + ss + ii + ir := by
    simp [totalTicks, hs]
  rw [htot] at h
  have htQ : (0 : ℚ) < (u : ℚ) + nn + ss + ii + ir := by exact_mod_cast h
  have htne : (u : ℚ) + nn + ss + ii + ir ≠ 0 := ne_of_gt htQ
  have e_t : ((totalTicks cpus : ℕ) : ℚ) = (u : ℚ) + nn + ss + ii + ir := by
    rw [htot]; push_cast; ring
  have e_u : (((sumTimes cpus).user : ℕ) : ℚ) = (u : ℚ) := by rw [hs]
  have e_s : (((sumTimes cpus).sys : ℕ) : ℚ) = (ss : ℚ) := by rw [hs]
  have e_i : (((sumTimes cpus).idle : ℕ) : ℚ) = (ii : ℚ) := by rw [hs]
  have hcpu := getCpuUsage_eval cpus u nn ss ii ir hs htne
  have hule : (u : ℚ) ≤ (u : ℚ) + nn + ss + ii + ir := by
    have : (u : ℕ) ≤ u + nn + ss + ii + ir := by omega
    exact_mod_cast this
  have hsle : (ss : ℚ) ≤ (u : ℚ) + nn + ss + ii + ir := by
    have : (ss : ℕ) ≤ u + nn + ss + ii + ir := by omega
    exact_mod_cast this
  have hile : (ii : ℚ) ≤ (u : ℚ) + nn + ss + ii + ir := by
    have : (ii : ℕ) ≤ u + nn + ss + ii + ir := by omega
    exact_mod_cast this
  refine ⟨jsToFixed 2 ((u : ℚ) / ((u : ℚ) + nn + ss + ii + ir) * 100),
    jsToFixed 2 ((ss : ℚ) / ((u : ℚ) + nn + ss + ii + ir) * 100),
    jsToFixed 2 ((ii : ℚ) / ((u : ℚ) + nn + ss + ii + ir) * 100),
    by rw [hcpu], by rw [hcpu], by rw [hcpu],
    by rw [e_t], by rw [e_t], by rw [e_t],
    ?_, ?_, ?_, ?_, ?_, ?_, ?_, by rw [hcpu, htot]⟩
  · exact jsToFixed_nonneg 2 _ (by positivity)
  · exact jsToFixed2_le_100 _ (pct_le_100 _ _ htQ hule)
  · exact jsToFixed_nonneg 2 _ (by positivity)
  · exact jsToFixed2_le_100 _ (pct_le_100 _ _ htQ hsle)
  · exact jsToFixed_nonneg 2 _ (by positivity)
  · exact jsToFixed2_le_100 _ (pct_le_100 _ _ htQ hile)
  · apply jsToFixed2_sum_le
    have hsum3 : (u : ℚ) + ss + ii ≤ (u : ℚ) + nn + ss + ii + ir := by
      have : (u : ℕ) + ss + ii ≤ u + nn + ss + ii + ir := by omega
      exact_mod_cast this
    have hcomb : (u : ℚ) / ((u : ℚ) + nn + ss + ii + ir) * 100 +
        (ss : ℚ) / ((u : ℚ) + nn + ss + ii + ir) * 100 +
        (ii : ℚ) / ((u : ℚ) + nn + ss + ii + ir) * 100 =
        ((u : ℚ) + ss + ii) / ((u : ℚ) + nn + ss + ii + ir) * 100 := by
      ring
    rw [hcomb]
    exact pct_le_100 _ _ htQ hsum3

/-- Witness for the amended C8 at a concrete one-core snapshot. -/
theorem getCpuUsage_bounds_witness :
    ∃ qu qs qi : ℚ,
      (getCpuUsage [⟨1, 2, 3, 4, 5⟩]).user = JsNum.val qu ∧
      (getCpuUsage [⟨1, 2, 3, 4, 5⟩]).system = JsNum.val qs ∧
      (getCpuUsage [⟨1, 2, 3, 4, 5⟩]).idle = JsNum.val qi ∧
      qu = jsToFixed 2 (((sumTimes [⟨1, 2, 3, 4, 5⟩]).user : ℚ) /
        (totalTicks [⟨1, 2, 3, 4, 5⟩] : ℚ) * 100) ∧
      qs = jsToFixed 2 (((sumTimes [⟨1, 2, 3, 4, 5⟩]).sys : ℚ) /
        (totalTicks [⟨1, 2, 3, 4, 5⟩] : ℚ) * 100) ∧
      qi = jsToFixed 2 (((sumTimes [⟨1, 2, 3, 4, 5⟩]).idle : ℚ) /
        (totalTicks [⟨1, 2, 3, 4, 5⟩] : ℚ) * 100) ∧
      0 ≤ qu ∧ qu ≤ 100 ∧ 0 ≤ qs ∧ qs ≤ 100 ∧ 0 ≤ qi ∧ qi ≤ 100 ∧
      qu + qs + qi ≤ 100 + 1 / 100 ∧
      (getCpuUsage [⟨1, 2, 3, 4, 5⟩]).total = totalTicks [⟨1, 2, 3, 4, 5⟩] :=
  getCpuUsage_bounds [⟨1, 2, 3, 4, 5⟩] (by decide)

theorem elapsedTimeInMs_eq (d : ℕ) :
    elapsedTimeInMs (d / 1000000000, d % 1000000000) = (d : ℚ) / 1000000 := by
  have hd : 1000000000 * (d / 1000000000) + d % 1000000000 = d := Nat.div_add_mod d 1000000000
  have hdQ : (1000000000 : ℚ) * ((d / 1000000000 : ℕ) : ℚ) + ((d % 1000000000 : ℕ) : ℚ) = (d : ℚ) := by
    exact_mod_cast hd
  unfold elapsedTimeInMs
  field_simp
  linarith

theorem jsToFixed_abs_le (d : ℕ) (q : ℚ) :
    |jsToFixed d q - q| ≤ 1 / (2 * 10 ^ d) := by
  have h1 := Int.floor_le (q * 10 ^ d + 1 / 2)
  have h2 := Int.sub_one_lt_floor (q * 10 ^ d + 1 / 2)
  have hp : (0 : ℚ) < 10 ^ d := by positivity
  have e1 : jsToFixed d q - q = ((⌊q * 10 ^ d + 1 / 2⌋ : ℚ) - q * 10 ^ d) / 10 ^ d := by
    unfold jsToFixed
    field_simp
    ring
  rw [e1, abs_div, abs_of_pos hp, div_le_div_iff hp (by positivity)]
  have habs : |(⌊q * 10 ^ d + 1 / 2⌋ : ℚ) - q * 10 ^ d| ≤ 1 / 2 := by
    rw [abs_le]
    constructor <;> linarith
  nlinarith [abs_nonneg ((⌊q * 10 ^ d + 1 / 2⌋ : ℚ) - q * 10 ^ d)]

/-- C9: for a request started at monotonic instant `t0` (ns) and finished at
`t1 ≥ t0`, the `responseTime` field is non-negative, is a multiple of `0.001`
(3 decimal places), and equals the monotonic clock delta expressed in
milliseconds up to the `toFixed(3)` rounding of at most half of the last
decimal place. -/
theorem responseTimeMs_correct (t0 t1 : ℕ) (h : t0 ≤ t1) :
    0 ≤ responseTimeMs t0 t1 ∧
    (∃ k : ℤ, responseTimeMs t0 t1 = (k : ℚ) / 1000) ∧
    |responseTimeMs t0 t1 - ((t1 - t0 : ℕ) : ℚ) / 1000000| ≤ 1 / 2000 := by
  unfold responseTimeMs hrtimeElapsed
  rw [elapsedTimeInMs_eq]
  refine ⟨?_, ⟨⌊((t1 - t0 : ℕ) : ℚ) / 1000000 * 10 ^ 3 + 1 / 2⌋, ?_⟩, ?_⟩
  · exact jsToFixed_nonneg 3 _ (by positivity)
  · unfold jsToFixed
    norm_num
  · have habs := jsToFixed_abs_le 3 (((t1 - t0 : ℕ) : ℚ) / 1000000)
    norm_num at habs
    norm_num
    exact habs

/-- Witness for C9 at a request taking 42 ms plus 123456 ns. -/
theorem responseTimeMs_correct_witness :
    0 ≤ responseTimeMs 1000 (1000 + 42123456) ∧
    (∃ k : ℤ, responseTimeMs 1000 (1000 + 42123456) = (k : ℚ) / 1000) ∧
    |responseTimeMs 1000 (1000 + 42123456) -
      (((1000 + 42123456) - 1000 : ℕ) : ℚ) / 1000000| ≤ 1 / 2000 :=
  responseTimeMs_correct 1000 (1000 + 42123456) (by omega)

/-- C10: the divisions in `getCpuUsage` are unguarded — on a snapshot whose
tick counters are all zero the function raises no error and returns
`NaN`-valued user, system and idle fields (`0/0`) with `total = 0`. -/
theorem getCpuUsage_zero_total_nan (cpus : List CpuTimes) (h : totalTicks cpus = 0) :
    getCpuUsage cpus = ⟨JsNum.nan, JsNum.nan, JsNum.nan, 0⟩ := by
  rcases hs : sumTimes cpus with ⟨u, nn, ss, ii, ir⟩
  have htot : totalTicks cpus = u + nn + ss + ii + ir := by
    simp [totalTicks, hs]
  rw [htot] at h
  have hu : u = 0 := by omega
  have hnn : nn = 0 := by omega
  have hss : ss = 0 := by omega
  have hii : ii = 0 := by omega
  have hir : ir = 0 := by omega
  subst hu hnn hss hii hir
  simp [getCpuUsage, hs, jsDiv, jsMul100, jsNumToFixed]

/-- Witness for C10 at the all-zero one-core snapshot. -/
theorem getCpuUsage_zero_total_nan_witness :
    getCpuUsage [⟨0, 0, 0, 0, 0⟩] = ⟨JsNum.nan, JsNum.nan, JsNum.nan, 0⟩ :=
  getCpuUsage_zero_total_nan [⟨0, 0, 0, 0, 0⟩] (by decide)
